import Mathlib

/-!
Verification development for the oauth-email-connector backend: the email
dispatch + tracking-injection pipeline (EmailService), the tracking URL codec,
and the tracking event recorder routes.

JavaScript strings are modelled as lists of bytes (`List Nat`, each element
< 256): at the HTTP/wire level every string handled by the codec is its UTF-8
byte sequence.  All string literals appearing in the source are ASCII, so they
are embedded via their code points.
-/

/-- Byte-string model of a JavaScript string (UTF-8 bytes, each < 256). -/
abbrev JStr := List Nat

/-- Embed an ASCII string literal from the source as its byte sequence. -/
def strBytes (s : String) : JStr := s.data.map Char.toNat

/-- All elements of the byte string are actual bytes. -/
def bytesOk (s : JStr) : Bool := s.all (fun b => b < 256)

/-! ### Percent-encoding codec (JavaScript `encodeURIComponent`)

`encodeURIComponent` leaves the unreserved characters
`A-Z a-z 0-9 - _ . ! ~ * ' ( )` intact and replaces every other byte of the
UTF-8 form by `%HH` with uppercase hex digits. -/

/-- Characters `encodeURIComponent` leaves unescaped
(`A-Z a-z 0-9` and `- _ . ! ~ * ' ( )`, by code point). -/
def isUriUnreserved (b : Nat) : Bool :=
  (65 ≤ b && b ≤ 90) || (97 ≤ b && b ≤ 122) || (48 ≤ b && b ≤ 57) ||
  b == 45 || b == 95 || b == 46 || b == 33 || b == 126 || b == 42 ||
  b == 39 || b == 40 || b == 41

/-- Uppercase hex digit for a value < 16 (as a code point). -/
def hexDigit (n : Nat) : Nat := if n < 10 then 48 + n else 55 + n

/-- Value of a hex digit code point (accepts both cases), `none` otherwise. -/
def hexVal (c : Nat) : Option Nat :=
  if 48 ≤ c ∧ c ≤ 57 then some (c - 48)
  else if 65 ≤ c ∧ c ≤ 70 then some (c - 55)
  else if 97 ≤ c ∧ c ≤ 102 then some (c - 87)
  else none

/-- Encoding of one byte: itself if unreserved, `%HH` otherwise
(37 is the code point of the percent sign). -/
def encByte (b : Nat) : JStr :=
  if isUriUnreserved b then [b] else [37, hexDigit (b / 16), hexDigit (b % 16)]

/-- Model of `encodeURIComponent` on the UTF-8 byte sequence. -/
def encodeURIComponent (s : JStr) : JStr := (s.map encByte).flatten

/-- Model of `decodeURIComponent` (as used by the Express routing layer on
path parameters): `%HH` triples become the corresponding byte, everything
else passes through; a dangling or malformed percent escape fails. -/
def decodeURIComponent : JStr → Option JStr
  | [] => some []
  | c :: rest =>
    if c = 37 then
      match rest with
      | h :: l :: rest2 =>
        match hexVal h, hexVal l, decodeURIComponent rest2 with
        | some hv, some lv, some r => some ((16 * hv + lv) :: r)
        | _, _, _ => none
      | _ => none
    else (decodeURIComponent rest).map (fun r => c :: r)

/-! ### Codec roundtrip lemmas -/

theorem decode_cons_ne {c : Nat} (rest : JStr) (h : c ≠ 37) :
    decodeURIComponent (c :: rest) = (decodeURIComponent rest).map (fun r => c :: r) := by
  rw [decodeURIComponent.eq_def]
  simp only [if_neg h]

theorem decode_pct (h l : Nat) (rest : JStr) :
    decodeURIComponent (37 :: h :: l :: rest) =
      match hexVal h, hexVal l, decodeURIComponent rest with
      | some hv, some lv, some r => some ((16 * hv + lv) :: r)
      | _, _, _ => none := by
  simp [decodeURIComponent]

theorem isUriUnreserved_ne_pct {b : Nat} (h : isUriUnreserved b = true) : b ≠ 37 := by
  intro hb; subst hb; simp [isUriUnreserved] at h

theorem hexVal_hexDigit {n : Nat} (h : n < 16) : hexVal (hexDigit n) = some n := by
  unfold hexVal hexDigit
  by_cases h10 : n < 10
  · rw [if_pos h10, if_pos (by omega : 48 ≤ 48 + n ∧ 48 + n ≤ 57)]
    congr 1; omega
  · rw [if_neg h10, if_neg (by omega : ¬(48 ≤ 55 + n ∧ 55 + n ≤ 57)),
      if_pos (by omega : 65 ≤ 55 + n ∧ 55 + n ≤ 70)]
    congr 1; omega

theorem decode_encByte (b : Nat) (hb : b < 256) (rest : JStr) :
    decodeURIComponent (encByte b ++ rest) = (decodeURIComponent rest).map (fun r => b :: r) := by
  by_cases hu : isUriUnreserved b = true
  · have hne : b ≠ 37 := isUriUnreserved_ne_pct hu
    rw [show encByte b ++ rest = b :: rest by simp [encByte, hu], decode_cons_ne rest hne]
  · have h1 : b / 16 < 16 := by omega
    have h2 : b % 16 < 16 := by omega
    rw [show encByte b ++ rest = 37 :: hexDigit (b / 16) :: hexDigit (b % 16) :: rest by
        simp [encByte, hu],
      decode_pct, hexVal_hexDigit h1, hexVal_hexDigit h2]
    cases decodeURIComponent rest with
    | none => rfl
    | some r =>
      show some ((16 * (b / 16) + b % 16) :: r) = some (b :: r)
      congr 2
      omega

/-- Decoding inverts encoding on genuine byte strings. -/
theorem decode_encode (s : JStr) (hs : bytesOk s = true) :
    decodeURIComponent (encodeURIComponent s) = some s := by
  induction s with
  | nil => simp [encodeURIComponent, decodeURIComponent]
  | cons b t ih =>
    simp only [bytesOk, List.all_cons, Bool.and_eq_true, decide_eq_true_eq] at hs
    have ht : bytesOk t = true := hs.2
    have he : encodeURIComponent (b :: t) = encByte b ++ encodeURIComponent t := by
      simp [encodeURIComponent]
    rw [he, decode_encByte b hs.1, ih ht]
    rfl

/-- `encodeURIComponent` is injective on byte strings. -/
theorem encode_injective {a b : JStr} (ha : bytesOk a = true) (hb : bytesOk b = true)
    (h : encodeURIComponent a = encodeURIComponent b) : a = b := by
  have hd := decode_encode a ha
  rw [h, decode_encode b hb] at hd
  exact (Option.some.injEq _ _).mp hd.symm

/-- Decoding a percent-free string is the identity. -/
theorem decode_raw (s : JStr) (h : 37 ∉ s) : decodeURIComponent s = some s := by
  induction s with
  | nil => simp [decodeURIComponent]
  | cons c t ih =>
    have hc : c ≠ 37 := fun hc => h (hc ▸ List.mem_cons_self c t)
    have ht : 37 ∉ t := fun hm => h (List.mem_cons_of_mem _ hm)
    rw [decode_cons_ne t hc, ih ht]
    rfl

/-! ### Data model (`SendEmailRequest`, from src types)

`provider` is `"gmail" | "outlook"`; optional `cc`/`bcc`/`htmlBody` are
modelled with `[]` / `Option`. -/

inductive EmailProvider
  | gmail
  | outlook
deriving DecidableEq

structure SendEmailRequest where
  «to» : List JStr
  cc : List JStr
  bcc : List JStr
  subject : JStr
  body : JStr
  htmlBody : Option JStr
  provider : EmailProvider
deriving DecidableEq

/-! ### Tracking URL builders (EmailService, `emailService.ts`)

`config.APP_URL` defaults to `http://localhost:6333` (`config/env.ts`). -/

def APP_URL : JStr := strBytes "http://localhost:6333"

/-- Template `APP_URL/api/tracking/pixel/<trackingId>/<encodeURIComponent(recipientEmail)>`
(the trackingId is interpolated raw, the recipient is percent-encoded). -/
def trackingPixelUrl (trackingId recipientEmail : JStr) : JStr :=
  APP_URL ++ strBytes "/api/tracking/pixel/" ++ trackingId ++ strBytes "/" ++
    encodeURIComponent recipientEmail

/-- Template `APP_URL/api/tracking/click/<trackingId>/<encodeURIComponent(url)>/<encodeURIComponent(recipientEmail)>`. -/
def clickTrackingUrl (trackingId url recipientEmail : JStr) : JStr :=
  APP_URL ++ strBytes "/api/tracking/click/" ++ trackingId ++ strBytes "/" ++
    encodeURIComponent url ++ strBytes "/" ++ encodeURIComponent recipientEmail

/-! ### Content rewriter (`addClickTrackingForRecipient`, `processEmailWithRecipientTracking`)

The source replaces every match of the regex `https?:\/\/[^\s<>"]+` (flags
`gi`) by the click-tracking URL.  `\s` is modelled by the ASCII whitespace
bytes (9-13 and 32). -/

/-- Byte allowed inside a matched URL: anything but whitespace, `<`, `>`, `"`. -/
def isUrlChar (b : Nat) : Bool :=
  !(b == 32 || b == 9 || b == 10 || b == 11 || b == 12 || b == 13 ||
    b == 60 || b == 62 || b == 34)

/-- ASCII lowercase folding, for the regex's `i` flag. -/
def lowerByte (b : Nat) : Nat := if 65 ≤ b ∧ b ≤ 90 then b + 32 else b

/-- Length of the scheme prefix `https://` / `http://` matched
case-insensitively at the start of `s`, if any. -/
def matchScheme (s : JStr) : Option Nat :=
  if (s.take 8).map lowerByte = strBytes "https://" then some 8
  else if (s.take 7).map lowerByte = strBytes "http://" then some 7
  else none

/-- Length of the regex match `https?:\/\/[^\s<>"]+` anchored at the start of
`s` (`none` when the scheme is absent or no URL byte follows it). -/
def urlMatchLen (s : JStr) : Option Nat :=
  match matchScheme s with
  | none => none
  | some k =>
    let run := ((s.drop k).takeWhile isUrlChar).length
    if run = 0 then none else some (k + run)

/-- Global leftmost regex replacement, as JavaScript `String.replace` with a
`g` regex: scan left to right, replace each anchored match, resume after it.
A match is at least 7 bytes long (the scheme), so dropping `n` bytes from
`c :: rest` is dropping `n - 1` from `rest`. -/
def replaceUrls (f : JStr → JStr) (s : JStr) : JStr :=
  match s with
  | [] => []
  | c :: rest =>
    match urlMatchLen (c :: rest) with
    | some n => f ((c :: rest).take n) ++ replaceUrls f (rest.drop (n - 1))
    | none => c :: replaceUrls f rest
termination_by s.length
decreasing_by
  · simp only [List.length_drop, List.length_cons]; omega
  · simp only [List.length_cons]; omega

/-- EmailService.addClickTrackingForRecipient: rewrite every outbound URL in
`content` into the per-recipient click-tracking URL (both regex-callback
branches of the source return the same `trackingUrl`). -/
def addClickTrackingForRecipient (content trackingId recipientEmail : JStr)
    (isHtml : Bool) : JStr :=
  replaceUrls (fun url =>
    let trackingUrl := clickTrackingUrl trackingId url recipientEmail
    if isHtml then trackingUrl else trackingUrl) content

/-- Fixed HTML wrapper pieces of `processEmailWithRecipientTracking`
(template literal, lines 365-372 of the service): before the processed body, -/
def htmlWrapA : JStr :=
  strBytes "\n        <html>\n          <body>\n            <pre style=\"font-family: inherit; white-space: pre-wrap;\">"

/-- between the processed body and the pixel URL, -/
def htmlWrapB : JStr := strBytes "</pre>\n            <img src=\""

/-- and after the pixel URL. -/
def htmlWrapC : JStr :=
  strBytes "\" width=\"1\" height=\"1\" style=\"display:none;\" alt=\"\" />\n          </body>\n        </html>\n      "

/-- EmailService.processEmailWithRecipientTracking: link-rewrites the plain
body for this recipient and synthesizes an HTML body wrapping it together
with the recipient's tracking-pixel image. -/
def processEmailWithRecipientTracking (emailData : SendEmailRequest)
    (trackingId recipientEmail : JStr) : JStr × JStr :=
  let processedBody := addClickTrackingForRecipient emailData.body trackingId recipientEmail false
  let pixelUrl := trackingPixelUrl trackingId recipientEmail
  let processedHtmlBody := htmlWrapA ++ processedBody ++ (htmlWrapB ++ (pixelUrl ++ htmlWrapC))
  (processedBody, processedHtmlBody)

/-! ### Tracking URL parsing (Express routing layer) -/

/-- URL path extraction: everything before the first `?` (63) or `#` (35). -/
def takeUntilQueryOrHash (s : JStr) : JStr :=
  s.takeWhile (fun c => c ≠ 63 ∧ c ≠ 35)

/-- Strip a fixed route mount prefix from the path, if present. -/
def stripRouteStart (p s : JStr) : Option JStr :=
  if p.isPrefixOf s then some (s.drop p.length) else none

/-- Split a path remainder into `/`-separated segments (47 is the slash). -/
def splitSeg : JStr → List JStr
  | [] => [[]]
  | c :: rest =>
    if c = 47 then [] :: splitSeg rest
    else
      match splitSeg rest with
      | [] => [[c]]
      | seg :: segs => (c :: seg) :: segs

/-- Modelled from the spec: §4.1's `parsePixelRequest` has no standalone
function in the source; it is realized by the Express route pattern
`GET /api/tracking/pixel/:trackingId/:recipient`, which matches on the URL
path (the part before any query or fragment), splits it on `/`, requires
exactly the pattern's segments, and applies `decodeURIComponent` to each
captured parameter. -/
def parsePixelRequest (fullUrl : JStr) : Option (JStr × JStr) :=
  let path := takeUntilQueryOrHash fullUrl
  match stripRouteStart (APP_URL ++ strBytes "/api/tracking/pixel/") path with
  | none => none
  | some rest =>
    match splitSeg rest with
    | [seg1, seg2] =>
      match decodeURIComponent seg1, decodeURIComponent seg2 with
      | some tid, some rcpt => some (tid, rcpt)
      | _, _ => none
    | _ => none

/-- Modelled from the spec: the click analogue, realized by the route pattern
`GET /api/tracking/click/:trackingId/:url/:recipient`. -/
def parseClickRequest (fullUrl : JStr) : Option (JStr × JStr × JStr) :=
  let path := takeUntilQueryOrHash fullUrl
  match stripRouteStart (APP_URL ++ strBytes "/api/tracking/click/") path with
  | none => none
  | some rest =>
    match splitSeg rest with
    | [seg1, seg2, seg3] =>
      match decodeURIComponent seg1, decodeURIComponent seg2, decodeURIComponent seg3 with
      | some tid, some url, some rcpt => some (tid, url, rcpt)
      | _, _, _ => none
    | _ => none

/-- Path segment safe to interpolate raw into a route URL: free of the
separator `/`, the query/fragment starters `?` `#`, and the escape `%`. -/
def cleanSegment (s : JStr) : Bool :=
  s.all (fun c => c ≠ 47 ∧ c ≠ 63 ∧ c ≠ 35 ∧ c ≠ 37)

/-! ### Parsing support lemmas -/

theorem takeUntil_eq_self {s : JStr} (h : ∀ c ∈ s, c ≠ 63 ∧ c ≠ 35) :
    takeUntilQueryOrHash s = s := by
  induction s with
  | nil => rfl
  | cons c t ih =>
    have hc := h c (List.mem_cons_self c t)
    have ht : ∀ x ∈ t, x ≠ 63 ∧ x ≠ 35 := fun x hx => h x (List.mem_cons_of_mem _ hx)
    simp only [takeUntilQueryOrHash, List.takeWhile_cons] at ih ⊢
    rw [if_pos (by simp [hc.1, hc.2]), ih ht]

theorem stripRouteStart_append (p r : JStr) : stripRouteStart p (p ++ r) = some r := by
  have hpre : p.isPrefixOf (p ++ r) = true := by
    rw [List.isPrefixOf_iff_prefix]
    exact List.prefix_append p r
  simp [stripRouteStart, hpre]

theorem splitSeg_no_slash {s : JStr} (h : 47 ∉ s) : splitSeg s = [s] := by
  induction s with
  | nil => rfl
  | cons c t ih =>
    have hc : c ≠ 47 := fun hc => h (hc ▸ List.mem_cons_self c t)
    have ht : 47 ∉ t := fun hm => h (List.mem_cons_of_mem _ hm)
    simp only [splitSeg, if_neg hc, ih ht]

theorem splitSeg_append {a : JStr} (b : JStr) (h : 47 ∉ a) :
    splitSeg (a ++ 47 :: b) = a :: splitSeg b := by
  induction a with
  | nil => simp [splitSeg]
  | cons c t ih =>
    have hc : c ≠ 47 := fun hc => h (hc ▸ List.mem_cons_self c t)
    have ht : 47 ∉ t := fun hm => h (List.mem_cons_of_mem _ hm)
    simp only [List.cons_append, splitSeg, if_neg hc]
    rw [show t.append (47 :: b) = t ++ 47 :: b from rfl, ih ht]

theorem mem_encByte_reserved {b c : Nat} (h : c ∈ encByte b) :
    c ≠ 47 ∧ c ≠ 63 ∧ c ≠ 35 := by
  by_cases hu : isUriUnreserved b = true
  · simp only [encByte, if_pos hu, List.mem_singleton] at h
    subst h
    refine ⟨?_, ?_, ?_⟩ <;> intro hb <;> rw [hb] at hu <;> simp [isUriUnreserved] at hu
  · have hd : ∀ m : Nat, hexDigit m ≠ 47 ∧ hexDigit m ≠ 63 ∧ hexDigit m ≠ 35 := by
      intro m
      unfold hexDigit
      by_cases hlt : m < 10 <;> simp [hlt] <;> omega
    simp [encByte, hu] at h
    rcases h with h | h | h
    · subst h; exact ⟨by omega, by omega, by omega⟩
    · subst h; exact hd _
    · subst h; exact hd _

theorem mem_encode_reserved {s : JStr} {c : Nat} (h : c ∈ encodeURIComponent s) :
    c ≠ 47 ∧ c ≠ 63 ∧ c ≠ 35 := by
  simp only [encodeURIComponent, List.mem_flatten, List.mem_map] at h
  obtain ⟨l, ⟨b, _, rfl⟩, hc⟩ := h
  exact mem_encByte_reserved hc

/-! ### Dispatch orchestrator (EmailService.sendEmailWithTracking) -/

structure TrackingSendOutcome where
  messageId : JStr
  sentCount : Nat
deriving DecidableEq

/-- JavaScript `a || b` for an optional string `a`: yields `b` when `a` is
absent or the empty string (both falsy). -/
def orFalsy (a : Option JStr) (b : JStr) : JStr :=
  match a with
  | none => b
  | some s => if s.isEmpty then b else s

/-- Flattened recipient list `[...to, ...(cc || []), ...(bcc || [])]`. -/
def allRecipients (d : SendEmailRequest) : List JStr := d.«to» ++ d.cc ++ d.bcc

/-- Per-recipient payload built inside the dispatch loop: the same message
narrowed to `to: [recipient]`, `cc: []`, `bcc: []`, with the bodies replaced
by the recipient-tracked variants. -/
def recipientPayload (d : SendEmailRequest) (trackingId recipient : JStr) : SendEmailRequest :=
  let pr := processEmailWithRecipientTracking d trackingId recipient
  { d with «to» := [recipient], cc := [], bcc := [], body := pr.1, htmlBody := some pr.2 }

/-- Loop body of sendEmailWithTracking: accumulate `(sentCount, messageIds)`;
a successful send pushes its id and increments the counter, a thrown error is
caught and ignored. -/
def sendStep (send : SendEmailRequest → Except JStr JStr) (d : SendEmailRequest)
    (trackingId : JStr) (acc : Nat × List JStr) (recipient : JStr) : Nat × List JStr :=
  match send (recipientPayload d trackingId recipient) with
  | .ok mid => (acc.1 + 1, acc.2 ++ [mid])
  | .error _ => acc

/-- EmailService.sendEmailWithTracking.  The provider transports are network
calls, abstracted by `send` (`.error` is a thrown provider error — the loop's
try/catch swallows it).  `now` stands for `Date.now()` in the synthetic bulk
id; `messageIds[0] || "bulk_send_" + Date.now()` selects the first pushed id
unless it is absent or empty. -/
def sendEmailWithTracking (send : SendEmailRequest → Except JStr JStr)
    (d : SendEmailRequest) (trackingId now : JStr) : TrackingSendOutcome :=
  let r := (allRecipients d).foldl (sendStep send d trackingId) (0, [])
  { messageId := orFalsy r.2.head? (strBytes "bulk_send_" ++ now), sentCount := r.1 }

/-- The per-recipient payloads the dispatch loop hands to the provider
transport, in recipient order. -/
def sentPayloads (d : SendEmailRequest) (trackingId : JStr) : List SendEmailRequest :=
  (allRecipients d).map (recipientPayload d trackingId)

/-- Transport outcomes of one dispatch, in recipient order. -/
def perRecipientResults (send : SendEmailRequest → Except JStr JStr)
    (d : SendEmailRequest) (trackingId : JStr) : List (Except JStr JStr) :=
  (sentPayloads d trackingId).map send

/-- Ids of the successful sends, in order. -/
def okIds (rs : List (Except JStr JStr)) : List JStr :=
  rs.filterMap (fun r => match r with | .ok m => some m | .error _ => none)

/-! ### POST /send route handler (routes/email.ts) -/

inductive EmailStatus
  | sent
  | failed
deriving DecidableEq

/-- The persisted Email (SentMessage) fields the dispatch outcome determines. -/
structure EmailRecord where
  messageId : Option JStr
  status : EmailStatus
  error : Option JStr
  trackingId : JStr
deriving DecidableEq

structure SendRouteResult where
  record : EmailRecord
  httpStatus : Nat
  sentCount : Nat
deriving DecidableEq

/-- POST /send handler: the service call runs in a try/catch whose catch arm
(`.error`) would populate the persisted `error` field; a normal return
(`.ok`) persists `error: undefined` and derives status and HTTP code from
`sentCount`. -/
def postSendHandler (serviceResult : Except JStr TrackingSendOutcome)
    (trackingId : JStr) : SendRouteResult :=
  match serviceResult with
  | .error e =>
    { record := { messageId := none, status := .failed, error := some e, trackingId := trackingId }
      httpStatus := 500
      sentCount := 0 }
  | .ok result =>
    { record :=
        { messageId := some result.messageId
          status := if result.sentCount > 0 then .sent else .failed
          error := none
          trackingId := trackingId }
      httpStatus := if result.sentCount > 0 then 200 else 500
      sentCount := result.sentCount }

/-! ### Outlook transport (EmailService.sendOutlookEmail / createOutlookMessage) -/

inductive OAuthProvider
  | google
  | microsoft
deriving DecidableEq

structure ProviderConnection where
  provider : OAuthProvider
  accessToken : JStr
deriving DecidableEq

structure IUser where
  connectedProviders : List ProviderConnection
deriving DecidableEq

/-- JavaScript truthiness of an optional string (`undefined` and `""` are
falsy). -/
def truthyStr : Option JStr → Bool
  | none => false
  | some s => !s.isEmpty

/-- The Graph-style structured message of createOutlookMessage.  Recipient
entries `{ emailAddress: { address } }` are modelled by the address itself;
the `ccRecipients`/`bccRecipients` keys, set only when nonempty, are modelled
as lists where absent ≡ `[]`. -/
structure OutlookMessage where
  subject : JStr
  contentType : JStr
  content : JStr
  toRecipients : List JStr
  ccRecipients : List JStr
  bccRecipients : List JStr
deriving DecidableEq

def createOutlookMessage (d : SendEmailRequest) : OutlookMessage :=
  { subject := d.subject
    contentType := if truthyStr d.htmlBody then strBytes "HTML" else strBytes "Text"
    content := if truthyStr d.htmlBody then d.htmlBody.getD [] else d.body
    toRecipients := d.«to»
    ccRecipients := d.cc
    bccRecipients := d.bcc }

/-- Effect record of one sendOutlookEmail call: `submittedMessages` logs every
message actually submitted to the provider's send-mail API. -/
structure OutlookSendEffect where
  submittedMessages : List OutlookMessage
  result : Except JStr JStr

def findConnection (u : IUser) (p : OAuthProvider) : Option ProviderConnection :=
  u.connectedProviders.find? (fun c => c.provider == p)

/-- EmailService.sendOutlookEmail.  The source looks up the Microsoft
connection, checks the access token, builds the Outlook message — and then
returns a locally fabricated id `outlook_<Date.now()>_<random>` without
issuing any HTTP request (its catch block still handles an HTTP
`error.response`, but no request ever happens).  The thrown guard errors are
wrapped by the catch into the generic failure message. -/
def sendOutlookEmail (user : IUser) (emailData : SendEmailRequest)
    (now rand : JStr) : OutlookSendEffect :=
  match findConnection user .microsoft with
  | none =>
    { submittedMessages := []
      result := .error (strBytes "Failed to send Outlook email: No Microsoft account connected") }
  | some conn =>
    if conn.accessToken.isEmpty then
      { submittedMessages := []
        result := .error
          (strBytes "Failed to send Outlook email: No access token available for Microsoft account") }
    else
      let _message := createOutlookMessage emailData
      { submittedMessages := []
        result := .ok (strBytes "outlook_" ++ now ++ strBytes "_" ++ rand) }

/-! ### Gmail error classification (catch block of EmailService.sendGmailEmail) -/

/-- JavaScript `hay.includes(needle)` (substring containment). -/
def jsIncludes : JStr → JStr → Bool
  | [], needle => needle.isEmpty
  | c :: t, needle => needle.isPrefixOf (c :: t) || jsIncludes t needle

/-- A provider error as observed by the catch block: an optional numeric
`code` and a `message` string. -/
structure GmailApiError where
  code : Option Nat
  message : JStr
deriving DecidableEq

def gmailAuthExpiredMessage : JStr :=
  strBytes "Gmail authentication expired. Please reconnect your Google account in Settings."

/-- Message of the error rethrown by sendGmailEmail's catch block: the
auth-expired error when `error.code === 401` or the message contains any of
`invalid_grant`, `access_token`, `refresh`; the generic wrapped transport
failure otherwise. -/
def gmailFailureMessage (e : GmailApiError) : JStr :=
  if e.code == some 401 || jsIncludes e.message (strBytes "invalid_grant") ||
      jsIncludes e.message (strBytes "access_token") ||
      jsIncludes e.message (strBytes "refresh") then
    gmailAuthExpiredMessage
  else
    strBytes "Failed to send Gmail email: " ++ e.message

/-- Modelled from the spec: the provider signal for an expired/invalid token
is "HTTP 401, or an `invalid_grant`-class error" (§4.3). -/
def specAuthExpiredSignal (e : GmailApiError) : Bool :=
  e.code == some 401 || jsIncludes e.message (strBytes "invalid_grant")

/-! ### Tracking event recorder (routes/tracking + trackingUtils) -/

inductive TrackEventType
  | «open»
  | click
deriving DecidableEq

/-- Persisted Email row fields the tracking routes consult. -/
structure EmailRec where
  id : Nat
  trackingId : JStr
  sendTimestamp : Int
deriving DecidableEq

/-- One persisted EmailTracking row (request metadata beyond ip/user-agent is
omitted). -/
structure TrackingEvent where
  trackingId : JStr
  emailId : Nat
  eventType : TrackEventType
  ipAddress : Option JStr
  userAgent : Option JStr
  recipientEmail : JStr
  clickedUrl : Option JStr
deriving DecidableEq

structure Db where
  emails : List EmailRec
  events : List TrackingEvent
deriving DecidableEq

structure CooldownStatus where
  isActive : Bool
  remainingSeconds : Int
deriving DecidableEq

/-- Default of config.TRACKING_COOLDOWN_SECONDS. -/
def TRACKING_COOLDOWN_SECONDS : Int := 10

/-- trackingUtils.checkTrackingCooldown: times in milliseconds since epoch;
active while `now - sentTimestamp < cooldownSeconds * 1000`. -/
def checkTrackingCooldown (now sentTimestamp cooldownSeconds : Int) : CooldownStatus :=
  let timeDifference := now - sentTimestamp
  let cooldownPeriod := cooldownSeconds * 1000
  let isActive := decide (timeDifference < cooldownPeriod)
  { isActive := isActive
    remainingSeconds := if isActive then (cooldownPeriod - timeDifference + 999) / 1000 else 0 }

/-- Base64 payload of the 1x1 transparent PNG the pixel route always sends. -/
def trackingPixelPngBase64 : JStr :=
  strBytes "iVBORw0KGgoAAAANSUhEUgAAAAEAAAABCAYAAAAfFcSJAAAADUlEQVR42mNkYPhfDwAChwGA60e6kgAAAABJRU5ErkJggg=="

inductive TrackResponse
  | image (base64 : JStr)
  | badRequest
  | redirect (url : JStr)
deriving DecidableEq

def findByTrackingId (db : Db) (trackingId : JStr) : Option EmailRec :=
  db.emails.find? (fun e => e.trackingId == trackingId)

/-- GET /pixel/:trackingId/:recipient: reject a falsy trackingId with 400;
look the email up by trackingId; suppress the event while the cooldown is
active, else append one `open` row; always answer with the pixel image. -/
def pixelHandler (db : Db) (now cooldownSeconds : Int) (trackingId recipient : JStr)
    (ipAddress userAgent : Option JStr) : Db × TrackResponse :=
  if trackingId.isEmpty then (db, .badRequest)
  else
    match findByTrackingId db trackingId with
    | some email =>
      let cooldownStatus := checkTrackingCooldown now email.sendTimestamp cooldownSeconds
      if cooldownStatus.isActive then (db, .image trackingPixelPngBase64)
      else
        ({ db with events := db.events ++
            [{ trackingId := trackingId, emailId := email.id, eventType := .«open»,
               ipAddress := ipAddress, userAgent := userAgent,
               recipientEmail := recipient, clickedUrl := none }] },
         .image trackingPixelPngBase64)
    | none => (db, .image trackingPixelPngBase64)

/-- GET /click/:trackingId/:url/:recipient: look the email up by trackingId;
when found, append one `click` row unconditionally — this route consults no
cooldown — and always redirect to the (already decoded) `url` parameter. -/
def clickHandler (db : Db) (trackingId url recipient : JStr)
    (ipAddress userAgent : Option JStr) : Db × TrackResponse :=
  match findByTrackingId db trackingId with
  | some email =>
    ({ db with events := db.events ++
        [{ trackingId := trackingId, emailId := email.id, eventType := .click,
           ipAddress := ipAddress, userAgent := userAgent,
           recipientEmail := recipient, clickedUrl := some url }] },
     .redirect url)
  | none => (db, .redirect url)

/-! ### Dispatch characterization -/

theorem okIds_cons_ok (m : JStr) (t : List (Except JStr JStr)) :
    okIds (.ok m :: t) = m :: okIds t := by
  simp [okIds, List.filterMap_cons]

theorem okIds_cons_error (e : JStr) (t : List (Except JStr JStr)) :
    okIds (.error e :: t) = okIds t := by
  simp [okIds, List.filterMap_cons]

theorem foldl_sendStep (send : SendEmailRequest → Except JStr JStr) (d : SendEmailRequest)
    (trackingId : JStr) (rs : List JStr) (c : Nat) (ids : List JStr) :
    rs.foldl (sendStep send d trackingId) (c, ids) =
      (c + (okIds ((rs.map (recipientPayload d trackingId)).map send)).length,
       ids ++ okIds ((rs.map (recipientPayload d trackingId)).map send)) := by
  induction rs generalizing c ids with
  | nil => simp [okIds]
  | cons r t ih =>
    simp only [List.foldl_cons, List.map_cons]
    cases hsend : send (recipientPayload d trackingId r) with
    | ok mid =>
      rw [show sendStep send d trackingId (c, ids) r = (c + 1, ids ++ [mid]) by
          simp [sendStep, hsend],
        ih, okIds_cons_ok]
      refine Prod.ext ?_ ?_
      · simp; omega
      · simp
    | error e =>
      rw [show sendStep send d trackingId (c, ids) r = (c, ids) by simp [sendStep, hsend],
        ih, okIds_cons_error]

/-- The dispatch outcome, characterized over the per-recipient transport
results: `sentCount` counts the successes, `messageId` is the first pushed id
unless absent/empty. -/
theorem sendEmailWithTracking_eq (send : SendEmailRequest → Except JStr JStr)
    (d : SendEmailRequest) (trackingId now : JStr) :
    sendEmailWithTracking send d trackingId now =
      { messageId := orFalsy (okIds (perRecipientResults send d trackingId)).head?
          (strBytes "bulk_send_" ++ now)
        sentCount := (okIds (perRecipientResults send d trackingId)).length } := by
  unfold sendEmailWithTracking perRecipientResults sentPayloads
  rw [foldl_sendStep send d trackingId (allRecipients d) 0 []]
  simp

theorem okIds_eq_nil {rs : List (Except JStr JStr)}
    (h : ∀ r ∈ rs, ∃ m, r = .error m) : okIds rs = [] := by
  induction rs with
  | nil => rfl
  | cons r t ih =>
    obtain ⟨m, rfl⟩ := h r (List.mem_cons_self r t)
    rw [okIds_cons_error]
    exact ih fun x hx => h x (List.mem_cons_of_mem _ hx)

/-! ### Tracking recorder helper lemmas -/

theorem ne_nil_isEmpty_false {tid : JStr} (h : tid ≠ []) : tid.isEmpty = false := by
  cases tid with
  | nil => exact absurd rfl h
  | cons c t => rfl

/-- The `open` TrackingEvent row the pixel route persists. -/
def openRow (trackingId : JStr) (e : EmailRec) (recipient : JStr)
    (ipAddress userAgent : Option JStr) : TrackingEvent :=
  { trackingId := trackingId, emailId := e.id, eventType := .«open»,
    ipAddress := ipAddress, userAgent := userAgent,
    recipientEmail := recipient, clickedUrl := none }

theorem pixelHandler_within_cooldown (db : Db) (now cooldownSeconds : Int)
    (tid rcpt : JStr) (ip ua : Option JStr) (e : EmailRec) (htid : tid ≠ [])
    (hfind : findByTrackingId db tid = some e)
    (hearly : now - e.sendTimestamp < cooldownSeconds * 1000) :
    pixelHandler db now cooldownSeconds tid rcpt ip ua = (db, .image trackingPixelPngBase64) := by
  have hact : (checkTrackingCooldown now e.sendTimestamp cooldownSeconds).isActive = true := by
    simp [checkTrackingCooldown, hearly]
  simp [pixelHandler, ne_nil_isEmpty_false htid, hfind, hact]

theorem pixelHandler_after_cooldown (db : Db) (now cooldownSeconds : Int)
    (tid rcpt : JStr) (ip ua : Option JStr) (e : EmailRec) (htid : tid ≠ [])
    (hfind : findByTrackingId db tid = some e)
    (hlate : cooldownSeconds * 1000 ≤ now - e.sendTimestamp) :
    pixelHandler db now cooldownSeconds tid rcpt ip ua =
      ({ db with events := db.events ++ [openRow tid e rcpt ip ua] },
       .image trackingPixelPngBase64) := by
  have hact : (checkTrackingCooldown now e.sendTimestamp cooldownSeconds).isActive = false := by
    simp [checkTrackingCooldown]
    omega
  simp [pixelHandler, ne_nil_isEmpty_false htid, hfind, hact, openRow]

theorem pixelHandler_emails (db : Db) (now cooldownSeconds : Int)
    (tid rcpt : JStr) (ip ua : Option JStr) :
    (pixelHandler db now cooldownSeconds tid rcpt ip ua).1.emails = db.emails := by
  unfold pixelHandler
  cases htid : tid.isEmpty
  · cases hfind : findByTrackingId db tid with
    | none => simp [htid, hfind]
    | some email =>
      cases hact : (checkTrackingCooldown now email.sendTimestamp cooldownSeconds).isActive
      · simp [htid, hfind, hact]
      · simp [htid, hfind, hact]
  · simp [htid]

/-- Repeated pixel hits: fold the handler over a list of hit times. -/
def iteratePixelHits (db : Db) (times : List Int) (cooldownSeconds : Int)
    (tid rcpt : JStr) (ip ua : Option JStr) : Db :=
  times.foldl (fun acc t => (pixelHandler acc t cooldownSeconds tid rcpt ip ua).1) db

theorem iteratePixelHits_length (cooldownSeconds : Int) (tid rcpt : JStr)
    (ip ua : Option JStr) (e : EmailRec) (htid : tid ≠ []) (times : List Int) :
    ∀ db : Db, (∀ t ∈ times, cooldownSeconds * 1000 ≤ t - e.sendTimestamp) →
      findByTrackingId db tid = some e →
      (iteratePixelHits db times cooldownSeconds tid rcpt ip ua).events.length =
        db.events.length + times.length := by
  induction times with
  | nil => intro db _ _; simp [iteratePixelHits]
  | cons t ts ih =>
    intro db hlate hfind
    have hstep := pixelHandler_after_cooldown db t cooldownSeconds tid rcpt ip ua e htid hfind
      (hlate t (List.mem_cons_self t ts))
    have hfind' : findByTrackingId (pixelHandler db t cooldownSeconds tid rcpt ip ua).1 tid = some e := by
      unfold findByTrackingId
      rw [pixelHandler_emails]
      exact hfind
    have hlen : (pixelHandler db t cooldownSeconds tid rcpt ip ua).1.events.length =
        db.events.length + 1 := by
      rw [hstep]; simp
    have hts : ∀ x ∈ ts, cooldownSeconds * 1000 ≤ x - e.sendTimestamp :=
      fun x hx => hlate x (List.mem_cons_of_mem _ hx)
    have hrec := ih (pixelHandler db t cooldownSeconds tid rcpt ip ua).1 hts hfind'
    have hgoal : iteratePixelHits db (t :: ts) cooldownSeconds tid rcpt ip ua =
        iteratePixelHits (pixelHandler db t cooldownSeconds tid rcpt ip ua).1 ts
          cooldownSeconds tid rcpt ip ua := rfl
    rw [hgoal, hrec, hlen, List.length_cons]
    omega

/-! ### Concrete instances used by witnesses and counterexamples -/

def exampleReq : SendEmailRequest :=
  { «to» := [strBytes "a@x.co"], cc := [], bcc := [strBytes "b@x.co"],
    subject := strBytes "s", body := strBytes "hi", htmlBody := none,
    provider := .gmail }

def exampleTid : JStr := strBytes "64af0c1e2f3a4b5c6d7e8f90"

def exampleNow : JStr := strBytes "1700000000000"

def c2User : IUser :=
  { connectedProviders := [{ provider := .microsoft, accessToken := strBytes "tok" }] }

def c3Email : EmailRec := { id := 1, trackingId := strBytes "t1", sendTimestamp := 0 }

def c3Db : Db := { emails := [c3Email], events := [] }

def c3Url : JStr := strBytes "http://e.co"

def c3Rcpt : JStr := strBytes "r@x.co"

def c5Db : Db := { emails := [], events := [] }

/-! ### Claim theorems -/

/-- C2: contrary to the claim, `sendOutlookEmail` succeeds for every message
without submitting anything to the provider's send-mail API.  Whenever a
Microsoft connection with a nonempty token exists, the submission log is
empty yet the result is a success carrying the locally fabricated
`outlook_<now>_<rand>` id (the structured message is built and discarded). -/
theorem c2_outlook_succeeds_without_submission (user : IUser)
    (emailData : SendEmailRequest) (now rand : JStr) (conn : ProviderConnection)
    (hconn : findConnection user .microsoft = some conn)
    (htok : conn.accessToken ≠ []) :
    (sendOutlookEmail user emailData now rand).submittedMessages = [] ∧
    (sendOutlookEmail user emailData now rand).result =
      .ok (strBytes "outlook_" ++ now ++ strBytes "_" ++ rand) := by
  have htok' : conn.accessToken.isEmpty = false := ne_nil_isEmpty_false htok
  constructor <;> simp [sendOutlookEmail, hconn, htok']

/-- Witness: the Outlook no-submission theorem at a concrete connected user. -/
theorem c2_outlook_succeeds_without_submission_witness :
    (findConnection c2User .microsoft =
      some { provider := .microsoft, accessToken := strBytes "tok" }) ∧
    (({ provider := .microsoft, accessToken := strBytes "tok" } :
        ProviderConnection).accessToken ≠ []) ∧
    ((sendOutlookEmail c2User exampleReq exampleNow (strBytes "abc")).submittedMessages = [] ∧
     (sendOutlookEmail c2User exampleReq exampleNow (strBytes "abc")).result =
       .ok (strBytes "outlook_" ++ exampleNow ++ strBytes "_" ++ strBytes "abc")) :=
  ⟨by decide, by decide,
    c2_outlook_succeeds_without_submission c2User exampleReq exampleNow (strBytes "abc")
      { provider := .microsoft, accessToken := strBytes "tok" } (by decide) (by decide)⟩

/-- C3: evaluated at the failing input.  A click hit 3 s after send, with the
default 10 s cooldown still active, is nevertheless recorded — the click
route never consults `checkTrackingCooldown` — while the redirect does occur.
The claim (and §4.5 of the spec) requires the row to be suppressed. -/
theorem c3_click_within_cooldown_still_recorded :
    (checkTrackingCooldown 3000 0 TRACKING_COOLDOWN_SECONDS).isActive = true ∧
    (clickHandler c3Db (strBytes "t1") c3Url c3Rcpt none none).1.events.length = 1 ∧
    (clickHandler c3Db (strBytes "t1") c3Url c3Rcpt none none).2 = .redirect c3Url := by
  refine ⟨by decide, by decide, by decide⟩

/-- C5: a trackingId matching no Email row leaves the database untouched
while the pixel route still answers with the pixel image and the click route
still redirects to the decoded destination URL. -/
theorem c5_unknown_trackingId_inert (db : Db) (now cooldownSeconds : Int)
    (tid url rcpt : JStr) (ip ua : Option JStr)
    (hfind : findByTrackingId db tid = none) (htid : tid ≠ []) :
    pixelHandler db now cooldownSeconds tid rcpt ip ua = (db, .image trackingPixelPngBase64) ∧
    clickHandler db tid url rcpt ip ua = (db, .redirect url) := by
  constructor
  · simp [pixelHandler, ne_nil_isEmpty_false htid, hfind]
  · simp [clickHandler, hfind]

/-- Witness: the unknown-trackingId theorem at an empty database. -/
theorem c5_unknown_trackingId_inert_witness :
    (findByTrackingId c5Db (strBytes "t9") = none) ∧ (strBytes "t9" ≠ ([] : JStr)) ∧
    (pixelHandler c5Db 15000 TRACKING_COOLDOWN_SECONDS (strBytes "t9") c3Rcpt none none =
        (c5Db, .image trackingPixelPngBase64) ∧
     clickHandler c5Db (strBytes "t9") c3Url c3Rcpt none none = (c5Db, .redirect c3Url)) :=
  ⟨by decide, by decide,
    c5_unknown_trackingId_inert c5Db 15000 TRACKING_COOLDOWN_SECONDS (strBytes "t9")
      c3Url c3Rcpt none none (by decide) (by decide)⟩

/-- C10: every per-recipient payload the dispatch loop hands to the provider
transport has `to` equal to exactly that one recipient and empty `cc` and
`bcc`; and every recipient of the flattened to+cc+bcc list gets such a
payload (so a bcc recipient appears only in the To field of their own copy). -/
theorem c10_payload_isolation (d : SendEmailRequest) (trackingId : JStr) :
    (∀ p ∈ sentPayloads d trackingId,
        p.cc = [] ∧ p.bcc = [] ∧ ∃ r ∈ allRecipients d, p.«to» = [r]) ∧
    (∀ r ∈ allRecipients d, ∃ p ∈ sentPayloads d trackingId, p.«to» = [r]) := by
  constructor
  · intro p hp
    simp only [sentPayloads, List.mem_map] at hp
    obtain ⟨r, hr, rfl⟩ := hp
    exact ⟨rfl, rfl, r, hr, rfl⟩
  · intro r hr
    exact ⟨recipientPayload d trackingId r, List.mem_map_of_mem _ hr, rfl⟩

/-- Witness: payload isolation at a concrete dispatch, for the bcc recipient. -/
theorem c10_payload_isolation_witness :
    (recipientPayload exampleReq exampleTid (strBytes "b@x.co") ∈
      sentPayloads exampleReq exampleTid) ∧
    ((recipientPayload exampleReq exampleTid (strBytes "b@x.co")).cc = [] ∧
     (recipientPayload exampleReq exampleTid (strBytes "b@x.co")).bcc = [] ∧
     ∃ r ∈ allRecipients exampleReq,
       (recipientPayload exampleReq exampleTid (strBytes "b@x.co")).«to» = [r]) := by
  have hmem0 : strBytes "b@x.co" ∈ allRecipients exampleReq := by decide
  have hmem : recipientPayload exampleReq exampleTid (strBytes "b@x.co") ∈
      sentPayloads exampleReq exampleTid := List.mem_map_of_mem _ hmem0
  exact ⟨hmem, (c10_payload_isolation exampleReq exampleTid).1 _ hmem⟩

/-- C4: on a known trackingId, an open beacon hit within the cooldown window
writes no TrackingEvent row while still answering with the pixel image; a hit
at or after the window appends exactly one `open` row for that recipient
(still answering with the image); and a sequence of post-cooldown hits
appends one row per hit (no dedup). -/
theorem c4_open_cooldown (db : Db) (now cooldownSeconds : Int) (tid rcpt : JStr)
    (ip ua : Option JStr) (e : EmailRec) (htid : tid ≠ [])
    (hfind : findByTrackingId db tid = some e) :
    (now - e.sendTimestamp < cooldownSeconds * 1000 →
      pixelHandler db now cooldownSeconds tid rcpt ip ua =
        (db, .image trackingPixelPngBase64)) ∧
    (cooldownSeconds * 1000 ≤ now - e.sendTimestamp →
      pixelHandler db now cooldownSeconds tid rcpt ip ua =
        ({ db with events := db.events ++ [openRow tid e rcpt ip ua] },
         .image trackingPixelPngBase64)) ∧
    (∀ times : List Int, (∀ t ∈ times, cooldownSeconds * 1000 ≤ t - e.sendTimestamp) →
      (iteratePixelHits db times cooldownSeconds tid rcpt ip ua).events.length =
        db.events.length + times.length) := by
  refine ⟨?_, ?_, ?_⟩
  · exact pixelHandler_within_cooldown db now cooldownSeconds tid rcpt ip ua e htid hfind
  · exact pixelHandler_after_cooldown db now cooldownSeconds tid rcpt ip ua e htid hfind
  · intro times hlate
    exact iteratePixelHits_length cooldownSeconds tid rcpt ip ua e htid times db hlate hfind

/-- Witness: the open-cooldown theorem at the claim's own example — a hit 3 s
after send (suppressed), one at 15 s (one row), and two post-cooldown hits
(two rows), with the default 10 s cooldown. -/
theorem c4_open_cooldown_witness :
    (strBytes "t1" ≠ ([] : JStr)) ∧
    (findByTrackingId c3Db (strBytes "t1") = some c3Email) ∧
    ((3000 : Int) - c3Email.sendTimestamp < TRACKING_COOLDOWN_SECONDS * 1000) ∧
    (TRACKING_COOLDOWN_SECONDS * 1000 ≤ (15000 : Int) - c3Email.sendTimestamp) ∧
    (pixelHandler c3Db 3000 TRACKING_COOLDOWN_SECONDS (strBytes "t1") c3Rcpt none none =
      (c3Db, .image trackingPixelPngBase64)) ∧
    (pixelHandler c3Db 15000 TRACKING_COOLDOWN_SECONDS (strBytes "t1") c3Rcpt none none =
      ({ c3Db with events := c3Db.events ++
          [openRow (strBytes "t1") c3Email c3Rcpt none none] },
       .image trackingPixelPngBase64)) ∧
    ((iteratePixelHits c3Db [15000, 16000] TRACKING_COOLDOWN_SECONDS (strBytes "t1")
        c3Rcpt none none).events.length = c3Db.events.length + 2) := by
  have h1 := c4_open_cooldown c3Db 3000 TRACKING_COOLDOWN_SECONDS (strBytes "t1") c3Rcpt
    none none c3Email (by decide) (by decide)
  have h2 := c4_open_cooldown c3Db 15000 TRACKING_COOLDOWN_SECONDS (strBytes "t1") c3Rcpt
    none none c3Email (by decide) (by decide)
  refine ⟨by decide, by decide, by decide, by decide, h1.1 (by decide), h2.2.1 (by decide),
    h2.2.2 [15000, 16000] ?_⟩
  intro t ht
  simp only [List.mem_cons, List.not_mem_nil, or_false] at ht
  rcases ht with rfl | rfl <;> decide

/-- Transport stub for the all-fail dispatch: every send throws "boom". -/
def failSend : SendEmailRequest → Except JStr JStr := fun _ => .error (strBytes "boom")

/-- C1 counterexample: with every recipient failing (the transport always
throws "boom"), the dispatch yields status `failed` and `sentCount = 0` as
claimed, but the persisted record's error field is `none` — not the first
recipient's failure message — because the per-recipient errors are swallowed
inside the loop and the route's catch never runs. -/
theorem c1_counterexample :
    (postSendHandler (.ok (sendEmailWithTracking failSend exampleReq exampleTid exampleNow))
        exampleTid).record.status = .failed ∧
    (postSendHandler (.ok (sendEmailWithTracking failSend exampleReq exampleTid exampleNow))
        exampleTid).sentCount = 0 ∧
    (postSendHandler (.ok (sendEmailWithTracking failSend exampleReq exampleTid exampleNow))
        exampleTid).record.error = none ∧
    (none : Option JStr) ≠ some (strBytes "boom") := by
  refine ⟨by decide, by decide, by decide, by decide⟩

/-- C1 amended: a dispatch in which every recipient's send fails persists
status `failed` with `sentCount = 0`, and the persisted error field is `none`
(the per-recipient failure messages never reach the record). -/
theorem c1_all_fail_amended (send : SendEmailRequest → Except JStr JStr)
    (d : SendEmailRequest) (trackingId now : JStr)
    (hall : ∀ res ∈ perRecipientResults send d trackingId, ∃ msg, res = .error msg) :
    (postSendHandler (.ok (sendEmailWithTracking send d trackingId now))
        trackingId).record.status = .failed ∧
    (postSendHandler (.ok (sendEmailWithTracking send d trackingId now))
        trackingId).sentCount = 0 ∧
    (postSendHandler (.ok (sendEmailWithTracking send d trackingId now))
        trackingId).record.error = none := by
  have hok : okIds (perRecipientResults send d trackingId) = [] := okIds_eq_nil hall
  have hcount : (sendEmailWithTracking send d trackingId now).sentCount = 0 := by
    rw [sendEmailWithTracking_eq, hok]
    rfl
  refine ⟨?_, ?_, rfl⟩
  · simp [postSendHandler, hcount]
  · simp [postSendHandler, hcount]

/-- Witness: the all-fail theorem at a concrete two-recipient dispatch. -/
theorem c1_all_fail_amended_witness :
    (∀ res ∈ perRecipientResults failSend exampleReq exampleTid, ∃ msg, res = .error msg) ∧
    ((postSendHandler (.ok (sendEmailWithTracking failSend exampleReq exampleTid exampleNow))
        exampleTid).record.status = .failed ∧
     (postSendHandler (.ok (sendEmailWithTracking failSend exampleReq exampleTid exampleNow))
        exampleTid).sentCount = 0 ∧
     (postSendHandler (.ok (sendEmailWithTracking failSend exampleReq exampleTid exampleNow))
        exampleTid).record.error = none) := by
  have hall : ∀ res ∈ perRecipientResults failSend exampleReq exampleTid,
      ∃ msg, res = .error msg := by
    have heq : perRecipientResults failSend exampleReq exampleTid =
        [.error (strBytes "boom"), .error (strBytes "boom")] := rfl
    rw [heq]
    intro res hres
    simp only [List.mem_cons, List.not_mem_nil, or_false] at hres
    rcases hres with rfl | rfl <;> exact ⟨strBytes "boom", rfl⟩
  exact ⟨hall, c1_all_fail_amended failSend exampleReq exampleTid exampleNow hall⟩

/-- C9: the dispatch is total — every per-recipient throw is caught inside
the loop — and its messageId is always nonempty: the first successful
provider id when any send succeeded (provider ids being nonempty strings),
otherwise the synthetic `bulk_send_<now>` placeholder; consequently the
route's catch arm never runs and the persisted error field is always `none`. -/
theorem c9_dispatch_never_throws (send : SendEmailRequest → Except JStr JStr)
    (d : SendEmailRequest) (trackingId now : JStr)
    (hids : ∀ m ∈ okIds (perRecipientResults send d trackingId), m ≠ []) :
    (sendEmailWithTracking send d trackingId now).messageId ≠ [] ∧
    (sendEmailWithTracking send d trackingId now).sentCount =
      (okIds (perRecipientResults send d trackingId)).length ∧
    (sendEmailWithTracking send d trackingId now).messageId =
      (okIds (perRecipientResults send d trackingId)).headD (strBytes "bulk_send_" ++ now) ∧
    (postSendHandler (.ok (sendEmailWithTracking send d trackingId now))
        trackingId).record.error = none := by
  have hbulk : strBytes "bulk_send_" ++ now ≠ [] := by
    rw [show strBytes "bulk_send_" = 98 :: strBytes "ulk_send_" from rfl]
    simp
  have horf : orFalsy (okIds (perRecipientResults send d trackingId)).head?
        (strBytes "bulk_send_" ++ now) =
        (okIds (perRecipientResults send d trackingId)).headD (strBytes "bulk_send_" ++ now) ∧
      orFalsy (okIds (perRecipientResults send d trackingId)).head?
        (strBytes "bulk_send_" ++ now) ≠ [] := by
    cases hL : okIds (perRecipientResults send d trackingId) with
    | nil => exact ⟨rfl, hbulk⟩
    | cons m t =>
      have hm : m ≠ [] := hids m (by rw [hL]; exact List.mem_cons_self m t)
      have hm' : m.isEmpty = false := ne_nil_isEmpty_false hm
      constructor
      · simp [orFalsy, hm']
      · simp only [List.head?_cons, orFalsy, hm', Bool.false_eq_true, if_false]
        exact hm
  rw [sendEmailWithTracking_eq]
  exact ⟨horf.2, rfl, horf.1, rfl⟩

/-- Transport stub that always succeeds with id "id1". -/
def okSend : SendEmailRequest → Except JStr JStr := fun _ => .ok (strBytes "id1")

/-- Witness: the totality theorem at a concrete two-recipient dispatch whose
sends all succeed. -/
theorem c9_dispatch_never_throws_witness :
    (∀ m ∈ okIds (perRecipientResults okSend exampleReq exampleTid), m ≠ []) ∧
    ((sendEmailWithTracking okSend exampleReq exampleTid exampleNow).messageId ≠ [] ∧
     (sendEmailWithTracking okSend exampleReq exampleTid exampleNow).sentCount =
       (okIds (perRecipientResults okSend exampleReq exampleTid)).length ∧
     (sendEmailWithTracking okSend exampleReq exampleTid exampleNow).messageId =
       (okIds (perRecipientResults okSend exampleReq exampleTid)).headD
         (strBytes "bulk_send_" ++ exampleNow) ∧
     (postSendHandler (.ok (sendEmailWithTracking okSend exampleReq exampleTid exampleNow))
        exampleTid).record.error = none) := by
  have hids : ∀ m ∈ okIds (perRecipientResults okSend exampleReq exampleTid), m ≠ [] := by
    have heq : okIds (perRecipientResults okSend exampleReq exampleTid) =
        [strBytes "id1", strBytes "id1"] := rfl
    rw [heq]
    intro m hm
    simp only [List.mem_cons, List.not_mem_nil, or_false] at hm
    rcases hm with rfl | rfl <;> decide
  exact ⟨hids, c9_dispatch_never_throws okSend exampleReq exampleTid exampleNow hids⟩

def c8Err : GmailApiError :=
  { code := some 500, message := strBytes "socket hang up while refreshing connection" }

/-- C8 counterexample: an error carrying no token-expiry signal (HTTP 500,
no invalid_grant) is still classified as the auth-expired failure, because
its message happens to contain the substring "refresh". -/
theorem c8_counterexample :
    gmailFailureMessage c8Err = gmailAuthExpiredMessage ∧
    specAuthExpiredSignal c8Err = false := by
  refine ⟨by decide, by decide⟩

theorem failedMessage_ne_auth (m : JStr) :
    strBytes "Failed to send Gmail email: " ++ m ≠ gmailAuthExpiredMessage := by
  intro h
  have h0 := congrArg List.head? h
  rw [show strBytes "Failed to send Gmail email: " =
      70 :: strBytes "ailed to send Gmail email: " from rfl] at h0
  rw [show gmailAuthExpiredMessage = 71 :: strBytes
      "mail authentication expired. Please reconnect your Google account in Settings." from rfl] at h0
  simp at h0

/-- C8 amended: sendGmailEmail fails with the auth-expired error exactly when
`error.code === 401` or the error message contains one of the substrings
`invalid_grant`, `access_token`, `refresh`; every other failure gets the
generic wrapped transport error. -/
theorem c8_classification_amended (e : GmailApiError) :
    gmailFailureMessage e = gmailAuthExpiredMessage ↔
      (e.code = some 401 ∨ jsIncludes e.message (strBytes "invalid_grant") = true ∨
       jsIncludes e.message (strBytes "access_token") = true ∨
       jsIncludes e.message (strBytes "refresh") = true) := by
  unfold gmailFailureMessage
  by_cases hc : (e.code == some 401 || jsIncludes e.message (strBytes "invalid_grant") ||
      jsIncludes e.message (strBytes "access_token") ||
      jsIncludes e.message (strBytes "refresh")) = true
  · rw [if_pos hc]
    simp only [Bool.or_eq_true, beq_iff_eq] at hc
    exact iff_of_true rfl (by tauto)
  · rw [if_neg hc]
    simp only [Bool.or_eq_true, beq_iff_eq] at hc
    refine iff_of_false (failedMessage_ne_auth e.message) ?_
    tauto

/-- C6: two distinct recipients of one dispatch always receive different
rewritten content even for a byte-identical source message: the synthesized
HTML bodies embed each recipient's own percent-encoded address in the
tracking-pixel URL, and percent-encoding is injective. -/
theorem c6_recipient_content_distinct (d : SendEmailRequest) (trackingId a b : JStr)
    (ha : bytesOk a = true) (hb : bytesOk b = true) (hne : a ≠ b) :
    processEmailWithRecipientTracking d trackingId a ≠
      processEmailWithRecipientTracking d trackingId b := by
  intro h
  apply hne
  simp only [processEmailWithRecipientTracking, Prod.mk.injEq] at h
  obtain ⟨h1, h2⟩ := h
  rw [h1] at h2
  have h3 : trackingPixelUrl trackingId a = trackingPixelUrl trackingId b :=
    List.append_cancel_right (List.append_cancel_left (List.append_cancel_left h2))
  unfold trackingPixelUrl at h3
  exact encode_injective ha hb (List.append_cancel_left h3)

/-- Witness: content distinctness at a concrete dispatch with two recipients. -/
theorem c6_recipient_content_distinct_witness :
    (bytesOk (strBytes "a@x.co") = true) ∧ (bytesOk (strBytes "b@x.co") = true) ∧
    (strBytes "a@x.co" ≠ strBytes "b@x.co") ∧
    (processEmailWithRecipientTracking exampleReq exampleTid (strBytes "a@x.co") ≠
      processEmailWithRecipientTracking exampleReq exampleTid (strBytes "b@x.co")) :=
  ⟨by decide, by decide, by decide,
    c6_recipient_content_distinct exampleReq exampleTid (strBytes "a@x.co")
      (strBytes "b@x.co") (by decide) (by decide) (by decide)⟩

/-- C7 counterexample: a trackingId containing the reserved `/` is
interpolated raw into the pixel URL, so the route no longer parses back to
the original pair (the path now has three segments). -/
theorem c7_counterexample :
    parsePixelRequest (trackingPixelUrl (strBytes "a/b") (strBytes "e")) ≠
      some (strBytes "a/b", strBytes "e") := by
  decide

theorem cleanSegment_spec {s : JStr} (h : cleanSegment s = true) :
    ∀ c ∈ s, c ≠ 47 ∧ c ≠ 63 ∧ c ≠ 35 ∧ c ≠ 37 := by
  simp only [cleanSegment, List.all_eq_true, decide_eq_true_eq] at h
  exact h

/-- C7 amended: parsing the built pixel URL recovers (trackingId, email) and
parsing the built click URL recovers (trackingId, url, email) for arbitrary
byte-string emails and destination URLs — including ones containing `@`,
`/`, `?`, `&` — provided the raw-interpolated trackingId contains none of
`/`, `?`, `#`, `%` (as a minted hex ObjectId does). -/
theorem c7_roundtrip_amended (trackingId email url : JStr)
    (htid : cleanSegment trackingId = true)
    (hemail : bytesOk email = true) (hurl : bytesOk url = true) :
    parsePixelRequest (trackingPixelUrl trackingId email) = some (trackingId, email) ∧
    parseClickRequest (clickTrackingUrl trackingId url email) =
      some (trackingId, url, email) := by
  have hspec := cleanSegment_spec htid
  have h47 : 47 ∉ trackingId := fun hm => (hspec 47 hm).1 rfl
  have h37 : 37 ∉ trackingId := fun hm => (hspec 37 hm).2.2.2 rfl
  have hence : 47 ∉ encodeURIComponent email := fun hm => (mem_encode_reserved hm).1 rfl
  have hencu : 47 ∉ encodeURIComponent url := fun hm => (mem_encode_reserved hm).1 rfl
  constructor
  · have hfull : trackingPixelUrl trackingId email =
        (APP_URL ++ strBytes "/api/tracking/pixel/") ++
          (trackingId ++ 47 :: encodeURIComponent email) := by
      unfold trackingPixelUrl
      rw [show strBytes "/" = [47] from rfl]
      simp [List.append_assoc]
    have hconst : ∀ c ∈ APP_URL ++ strBytes "/api/tracking/pixel/", c ≠ 63 ∧ c ≠ 35 := by
      decide
    have hfu : ∀ c ∈ (APP_URL ++ strBytes "/api/tracking/pixel/") ++
        (trackingId ++ 47 :: encodeURIComponent email), c ≠ 63 ∧ c ≠ 35 := by
      intro c hc
      rcases List.mem_append.mp hc with hc | hc
      · exact hconst c hc
      rcases List.mem_append.mp hc with hc | hc
      · exact ⟨(hspec c hc).2.1, (hspec c hc).2.2.1⟩
      rcases List.mem_cons.mp hc with rfl | hc
      · exact ⟨by omega, by omega⟩
      · exact ⟨(mem_encode_reserved hc).2.1, (mem_encode_reserved hc).2.2⟩
    simp only [parsePixelRequest, hfull, takeUntil_eq_self hfu, stripRouteStart_append,
      splitSeg_append (encodeURIComponent email) h47, splitSeg_no_slash hence,
      decode_raw trackingId h37, decode_encode email hemail]
  · have hfull : clickTrackingUrl trackingId url email =
        (APP_URL ++ strBytes "/api/tracking/click/") ++
          (trackingId ++ 47 ::
            (encodeURIComponent url ++ 47 :: encodeURIComponent email)) := by
      unfold clickTrackingUrl
      rw [show strBytes "/" = [47] from rfl]
      simp [List.append_assoc]
    have hconst : ∀ c ∈ APP_URL ++ strBytes "/api/tracking/click/", c ≠ 63 ∧ c ≠ 35 := by
      decide
    have hfu : ∀ c ∈ (APP_URL ++ strBytes "/api/tracking/click/") ++
        (trackingId ++ 47 :: (encodeURIComponent url ++ 47 :: encodeURIComponent email)),
        c ≠ 63 ∧ c ≠ 35 := by
      intro c hc
      rcases List.mem_append.mp hc with hc | hc
      · exact hconst c hc
      rcases List.mem_append.mp hc with hc | hc
      · exact ⟨(hspec c hc).2.1, (hspec c hc).2.2.1⟩
      rcases List.mem_cons.mp hc with rfl | hc
      · exact ⟨by omega, by omega⟩
      rcases List.mem_append.mp hc with hc | hc
      · exact ⟨(mem_encode_reserved hc).2.1, (mem_encode_reserved hc).2.2⟩
      rcases List.mem_cons.mp hc with rfl | hc
      · exact ⟨by omega, by omega⟩
      · exact ⟨(mem_encode_reserved hc).2.1, (mem_encode_reserved hc).2.2⟩
    simp only [parseClickRequest, hfull, takeUntil_eq_self hfu, stripRouteStart_append,
      splitSeg_append (encodeURIComponent url ++ 47 :: encodeURIComponent email) h47,
      splitSeg_append (encodeURIComponent email) hencu, splitSeg_no_slash hence,
      decode_raw trackingId h37, decode_encode email hemail, decode_encode url hurl]

/-- Witness: the amended roundtrip at a hex trackingId and an email and URL
full of reserved characters. -/
theorem c7_roundtrip_amended_witness :
    (cleanSegment exampleTid = true) ∧
    (bytesOk (strBytes "a@b/c?d&e") = true) ∧
    (bytesOk (strBytes "https://ex.com/p?q=1&r=@") = true) ∧
    (parsePixelRequest (trackingPixelUrl exampleTid (strBytes "a@b/c?d&e")) =
        some (exampleTid, strBytes "a@b/c?d&e") ∧
     parseClickRequest (clickTrackingUrl exampleTid (strBytes "https://ex.com/p?q=1&r=@")
        (strBytes "a@b/c?d&e")) =
        some (exampleTid, strBytes "https://ex.com/p?q=1&r=@", strBytes "a@b/c?d&e")) :=
  ⟨by decide, by decide, by decide,
    c7_roundtrip_amended exampleTid (strBytes "a@b/c?d&e")
      (strBytes "https://ex.com/p?q=1&r=@") (by decide) (by decide) (by decide)⟩
